import Mathlib

/-!
Shallow embedding of `planeyeller.py` (github.com/jcalvinowens/planeyeller).

The program ingests SBS ("BaseStation") aircraft-surveillance lines, keeps one
mutable `Aircraft` record per ICAO identity in a dict, and schedules spoken
announcements with emergency preemption, angle-priority ordering and per-class
cooldowns.  We embed:

* Python `int(...)` / `float(...)` field parsing as `Option`-valued functions
  (`none` models a raised `ValueError`);
* the `Aircraft` object as a record of optional field values plus their
  timestamps, updates as pure state-passing functions with the current time
  passed explicitly (the source reads `time.time()` inside `poke`);
* the Python dict `planedict` (and `emerg` / `anns`) as association lists,
  preserving insertion order and insert-on-miss semantics of `setdefault`;
* `parse_sbs` with an explicit result type whose `eof` constructor models the
  raised `EOFError` and whose `fieldError` constructor models an uncaught
  `ValueError` escaping the field-update loop (carrying the partially updated
  tracker, since updates mutate in place before the exception propagates);
* the main-loop body (lines 588-634 of the source) as `evalStep` / `speakStep` /
  `stepLoop` over a `LoopState`.  `get_svector` is closed-form floating-point
  trigonometry; it is modelled as an abstract parameter `sv` because the claims
  under verification concern only its call sites and preconditions, never the
  numeric values it returns.  Timestamps and coordinates use `ℚ` in place of
  Python floats; none of the verified claims depends on float rounding.
-/

/-- Association-list lookup, modelling Python `dict.get(k)` (`none` = absent). -/
def getK {κ α : Type} [DecidableEq κ] : List (κ × α) → κ → Option α
  | [], _ => none
  | (k2, v) :: rest, k => if k2 = k then some v else getK rest k

/-- Association-list store, modelling Python `d[k] = v`: replaces the value in
place when the key exists, appends at the end on a miss (Python dicts preserve
insertion order). -/
def setK {κ α : Type} [DecidableEq κ] : List (κ × α) → κ → α → List (κ × α)
  | [], k, v => [(k, v)]
  | (k2, v2) :: rest, k, v =>
    if k2 = k then (k, v) :: rest else (k2, v2) :: setK rest k v

/-- Model of Python `str.upper()` (ASCII uppercasing; SBS identities are
hex/alphanumeric ASCII). -/
def pyUpper (s : String) : String :=
  ⟨s.toList.map Char.toUpper⟩

/-- Model of Python `str.strip()`: drop leading and trailing whitespace. -/
def pyStrip (l : List Char) : List Char :=
  ((l.dropWhile Char.isWhitespace).reverse.dropWhile Char.isWhitespace).reverse

/-- Model of Python `str.rstrip()`: drop trailing whitespace. -/
def pyRstrip (s : String) : String :=
  ⟨(s.toList.reverse.dropWhile Char.isWhitespace).reverse⟩

/-- Split a character list at every occurrence of `sep` (helper for
`str.split`). -/
def splitCharsAux (sep : Char) : List Char → List Char → List (List Char)
  | [], acc => [acc.reverse]
  | c :: rest, acc =>
    if c = sep then acc.reverse :: splitCharsAux sep rest []
    else splitCharsAux sep rest (c :: acc)

/-- Model of Python `line.split(",")`: the comma-separated fields, keeping
empty fields (an empty line yields one empty field). -/
def pySplit (sep : Char) (s : String) : List String :=
  (splitCharsAux sep s.toList []).map (fun l => ⟨l⟩)

/-- Numeric value of a digit string (helper for the `int(...)` model). -/
def digitsVal (l : List Char) : Nat :=
  l.foldl (fun n c => 10 * n + (c.toNat - 48)) 0

/-- Digit-string recognizer and value: `some` exactly on nonempty all-digit
lists. -/
def digitsToNat (l : List Char) : Option Nat :=
  if l ≠ [] && l.all Char.isDigit then some (digitsVal l) else none

/-- Model of Python `int(s)` on SBS field text: optional surrounding
whitespace, an optional sign, then decimal digits; anything else raises
`ValueError`, modelled as `none`.  (Python's underscore digit grouping is not
modelled; SBS fields never contain it.) -/
def pyParseInt (s : String) : Option Int :=
  match pyStrip s.toList with
  | '+' :: rest => (digitsToNat rest).map (fun n => (n : Int))
  | '-' :: rest => (digitsToNat rest).map (fun n => -(n : Int))
  | l => (digitsToNat l).map (fun n => (n : Int))

/-- Unsigned decimal numeral with an optional point, as a rational. -/
def parseUnsignedRat (l : List Char) : Option ℚ :=
  if l.contains '.' then
    let ip := l.takeWhile (fun c => c ≠ '.')
    let fp := (l.dropWhile (fun c => c ≠ '.')).drop 1
    if fp.contains '.' then none
    else if (ip.all Char.isDigit && fp.all Char.isDigit) &&
            (!ip.isEmpty || !fp.isEmpty) then
      some ((digitsVal ip : ℚ) + (digitsVal fp : ℚ) / ((10 : ℚ) ^ fp.length))
    else none
  else if l ≠ [] && l.all Char.isDigit then some ((digitsVal l : ℚ)) else none

/-- Model of Python `float(s)` on SBS coordinate text: optional whitespace and
sign, then a plain decimal numeral (exponents, `inf` and `nan` are not
modelled; SBS latitude/longitude fields are plain decimals).  `none` models a
raised `ValueError`. -/
def pyParseFloat (s : String) : Option ℚ :=
  match pyStrip s.toList with
  | '+' :: rest => parseUnsignedRat rest
  | '-' :: rest => (parseUnsignedRat rest).map (fun q => -q)
  | l => parseUnsignedRat l

/-- Emergency transponder codes and their spoken names (`EMERGENCY_SQUAWKS`). -/
def EMERGENCY_SQUAWKS : List (Int × String) :=
  [(7500, "hijacked"), (7600, "nordo"), (7700, "emergency")]

/-- Compass table from the source (`CARDINALS`): 17 entries, "north" at both
ends. -/
def CARDINALS : List String :=
  ["north", "north north east", "north east", "east north east", "east",
   "east south east", "south east", "south south east", "south",
   "south south west", "south west", "west south west", "west",
   "west north west", "north west", "north north west", "north"]

/-- Embedding of `cardinal(heading)`: `"unknown"` for `None`, otherwise the
compass entry at index `floor(heading / 22.5)`.  The result is `Option`-valued:
`none` models an `IndexError` on an out-of-range index.  (Python's negative
indexing is not modelled; every caller passes a nonnegative heading.) -/
def cardinal (heading : Option ℚ) : Option String :=
  match heading with
  | none => some "unknown"
  | some h => CARDINALS[(⌊h / (22.5 : ℚ)⌋).toNat]?

/-- One tracked aircraft: the mutable attributes of the Python `Aircraft`
object.  Every data field is optional ("unknown until first observed"); each
carries a last-update timestamp initialized to `0`.  Latitude and longitude
share the single `position_ts`, exactly as in the source. -/
structure Aircraft where
  icao : String
  altitude : Option Int
  altitude_ts : ℚ
  latitude : Option ℚ
  longitude : Option ℚ
  position_ts : ℚ
  squawk : Option Int
  squawk_ts : ℚ
  id : Option String
  id_ts : ℚ
  vertical_rate : Option Int
  vertical_rate_ts : ℚ
  track : Option Int
  velocity : Option Int
  gt_ts : ℚ
  gs_ts : ℚ
  last_ts : ℚ
  deriving Repr, DecidableEq

/-- Embedding of `Aircraft.__init__`: all fields unknown, all field timestamps
zero, `last_ts` stamped with the construction time (the constructor calls
`poke()`). -/
def Aircraft.init (icao : String) (now : ℚ) : Aircraft :=
  { icao := icao
    altitude := none, altitude_ts := 0
    latitude := none, longitude := none, position_ts := 0
    squawk := none, squawk_ts := 0
    id := none, id_ts := 0
    vertical_rate := none, vertical_rate_ts := 0
    track := none, velocity := none, gt_ts := 0, gs_ts := 0
    last_ts := now }

/-- Embedding of `Aircraft.update_squawk` (`int` parse; `none` = `ValueError`). -/
def Aircraft.update_squawk (a : Aircraft) (v : String) (now : ℚ) : Option Aircraft :=
  (pyParseInt v).map fun n => { a with squawk := some n, squawk_ts := now, last_ts := now }

/-- Embedding of `Aircraft.update_id` (callsign; `rstrip`, never fails). -/
def Aircraft.update_id (a : Aircraft) (v : String) (now : ℚ) : Aircraft :=
  { a with id := some (pyRstrip v), id_ts := now, last_ts := now }

/-- Embedding of `Aircraft.update_altitude`. -/
def Aircraft.update_altitude (a : Aircraft) (v : String) (now : ℚ) : Option Aircraft :=
  (pyParseInt v).map fun n => { a with altitude := some n, altitude_ts := now, last_ts := now }

/-- Embedding of `Aircraft.update_vertical_rate`. -/
def Aircraft.update_vertical_rate (a : Aircraft) (v : String) (now : ℚ) : Option Aircraft :=
  (pyParseInt v).map fun n =>
    { a with vertical_rate := some n, vertical_rate_ts := now, last_ts := now }

/-- Embedding of `Aircraft.update_latitude` (`float` parse; stamps the shared
`position_ts`). -/
def Aircraft.update_latitude (a : Aircraft) (v : String) (now : ℚ) : Option Aircraft :=
  (pyParseFloat v).map fun q => { a with latitude := some q, position_ts := now, last_ts := now }

/-- Embedding of `Aircraft.update_longitude` (stamps the shared `position_ts`). -/
def Aircraft.update_longitude (a : Aircraft) (v : String) (now : ℚ) : Option Aircraft :=
  (pyParseFloat v).map fun q => { a with longitude := some q, position_ts := now, last_ts := now }

/-- Embedding of `Aircraft.update_ground_track`. -/
def Aircraft.update_ground_track (a : Aircraft) (v : String) (now : ℚ) : Option Aircraft :=
  (pyParseInt v).map fun n => { a with track := some n, gt_ts := now, last_ts := now }

/-- Embedding of `Aircraft.update_ground_speed`. -/
def Aircraft.update_ground_speed (a : Aircraft) (v : String) (now : ℚ) : Option Aircraft :=
  (pyParseInt v).map fun n => { a with velocity := some n, gs_ts := now, last_ts := now }

/-- Embedding of `Aircraft.d_age`: `now` minus the minimum of the five data
timestamps (altitude, position, vertical rate, ground track, ground speed). -/
def Aircraft.d_age (a : Aircraft) (now : ℚ) : ℚ :=
  now - min a.altitude_ts (min a.position_ts (min a.vertical_rate_ts (min a.gt_ts a.gs_ts)))

/-- Embedding of `Aircraft.is_emergency`: the squawk is a key of
`EMERGENCY_SQUAWKS` (`None` is never a key). -/
def Aircraft.is_emergency (a : Aircraft) : Bool :=
  match a.squawk with
  | none => false
  | some s => (getK EMERGENCY_SQUAWKS s).isSome

/-- Embedding of `Aircraft.has_position`: latitude, longitude and altitude all
known. -/
def Aircraft.has_position (a : Aircraft) : Bool :=
  a.latitude.isSome && a.longitude.isSome && a.altitude.isSome

/-- Embedding of `Aircraft.complete(agelimit)`: position, vertical rate, track,
velocity and callsign all known, and `d_age` below the limit. -/
def Aircraft.complete (a : Aircraft) (agelimit : Int) (now : ℚ) : Bool :=
  a.has_position && a.vertical_rate.isSome && a.track.isSome &&
  a.velocity.isSome && a.id.isSome && decide (a.d_age now < (agelimit : ℚ))

/-- Ground-speed phrase from `Aircraft.announcement` (lines 340-343):
`f"{int(self.velocity // 10 * 10)} knots"` with Python floor division, or the
unknown phrase. -/
def velText (velocity : Option Int) : String :=
  match velocity with
  | some v => toString (v.fdiv 10 * 10) ++ " knots"
  | none => "unknown velocity"

/-- Altitude phrase from `Aircraft.announcement` (line 351):
`f"altitude {int(self.altitude//100*100)} feet"`; the altitude is known at
every call site (`has_position` is a precondition of `announcement`). -/
def altText (altitude : Int) : String :=
  "altitude " ++ toString (altitude.fdiv 100 * 100) ++ " feet"

/-- Vertical-trend phrase from `Aircraft.announcement` (lines 354-364):
the rate floored to a multiple of 100 by Python `// 100 * 100`, spoken as
climbing / descending / level, or the unknown phrase. -/
def vrText (vertical_rate : Option Int) : String :=
  match vertical_rate with
  | none => "vertical speed unknown"
  | some vr =>
    let r := vr.fdiv 100 * 100
    if r > 0 then "climbing at " ++ toString r ++ " feet per minute"
    else if r < 0 then "descending at " ++ toString r.natAbs ++ " feet per minute"
    else "in level flight"

/-- The tracker: Python's `planedict` (identity → `Aircraft`), as an ordered
association list. -/
structure AircraftTracker where
  planedict : List (String × Aircraft)
  deriving Repr, DecidableEq

/-- Outcome of `AircraftTracker.parse_sbs`.  `eof` models the raised
`EOFError`; `badLine` the warn-and-discard path (tracker unchanged, `None`
returned); `ok` the normal return of the uppercased ICAO; `fieldError` an
uncaught `ValueError` from a field update escaping `parse_sbs` — it carries the
tracker as mutated up to the point of the exception (`setdefault` has already
inserted the entry and earlier field updates have already been applied). -/
inductive ParseResult where
  | eof
  | badLine (t : AircraftTracker)
  | ok (t : AircraftTracker) (icao : String)
  | fieldError (t : AircraftTracker) (icao : String)
  deriving Repr, DecidableEq

/-- The keys of `AircraftTracker.SBS_FIELDS`, in dict insertion order. -/
def SBS_OFFSETS : List Nat := [10, 11, 12, 13, 14, 15, 16, 17]

/-- The dispatch table `AircraftTracker.SBS_FIELDS`: field offset → update
operation.  Unmapped offsets (never iterated) leave the aircraft unchanged. -/
def applySBSField (off : Nat) (a : Aircraft) (v : String) (now : ℚ) : Option Aircraft :=
  match off with
  | 10 => some (a.update_id v now)
  | 11 => a.update_altitude v now
  | 12 => a.update_ground_speed v now
  | 13 => a.update_ground_track v now
  | 14 => a.update_latitude v now
  | 15 => a.update_longitude v now
  | 16 => a.update_vertical_rate v now
  | 17 => a.update_squawk v now
  | _ => some a

/-- The field-update loop of `parse_sbs` (`for offset, update_fn in
SBS_FIELDS.items(): if fields[offset]: update_fn(plane, fields[offset])`):
offsets applied in order, empty fields skipped; a parse failure raises, so the
loop stops and returns `.error` with the aircraft as updated so far. -/
def runUpdates (fields : List String) (now : ℚ) : List Nat → Aircraft → Except Aircraft Aircraft
  | [], a => .ok a
  | off :: rest, a =>
    let v := fields.getD off ""
    if v = "" then runUpdates fields now rest a
    else
      match applySBSField off a v now with
      | some a2 => runUpdates fields now rest a2
      | none => .error a

/-- Embedding of `AircraftTracker.parse_sbs`: raise `EOFError` on the empty
line; split on commas; warn-and-discard lines with fewer than 18 fields; key on
`fields[4].upper()` with `setdefault` insert-on-miss; then run the field
updates.  The single `now` stands for the `time.time()` reads inside the
updates of one line. -/
def AircraftTracker.parse_sbs (t : AircraftTracker) (line : String) (now : ℚ) : ParseResult :=
  if line = "" then .eof
  else
    let fields := pySplit ',' line
    if fields.length < 18 then .badLine t
    else
      let icao := pyUpper (fields.getD 4 "")
      let plane := (getK t.planedict icao).getD (Aircraft.init icao now)
      match runUpdates fields now SBS_OFFSETS plane with
      | .ok a2 => .ok ⟨setK t.planedict icao a2⟩ icao
      | .error a2 => .fieldError ⟨setK t.planedict icao a2⟩ icao

/-- A fresh tracker (`AircraftTracker.__init__`). -/
def trackerInit : AircraftTracker := ⟨[]⟩

/-- Feed a sequence of (line, time) pairs through the tracker the way the main
loop does: stop at end of stream, and stop at an uncaught field exception
(which crashes the loop); short lines are discarded and processing continues. -/
def runLines : AircraftTracker → List (String × ℚ) → AircraftTracker
  | t, [] => t
  | t, (line, now) :: rest =>
    match t.parse_sbs line now with
    | .eof => t
    | .badLine t2 => runLines t2 rest
    | .ok t2 _ => runLines t2 rest
    | .fieldError t2 _ => t2

/-- The observer / policy arguments of `main` used by the scheduler. -/
structure Args where
  wait : Int
  angle : ℚ
  latitude : ℚ
  longitude : ℚ
  altitude : ℚ

/-- Scheduler state of the main loop: the tracker dict, the pending queue
`annqueue` (aircraft references, modelled by ICAO keys into the tracker), the
`emerg` and `anns` cooldown dicts, and the speaker slot `espeak` (the ICAO
being spoken, or `none` when idle). -/
structure LoopState where
  tracker : List (String × Aircraft)
  annqueue : List String
  emerg : List (String × ℚ)
  anns : List (String × ℚ)
  espeak : Option String

/-- Which branch of the per-record evaluation fired: the emergency enqueue, the
routine enqueue (`incl >= args.angle`), a routine-eligible aircraft below the
angle cutoff, or no branch at all. -/
inductive EvalAction where
  | emergencyEnq
  | routineEnq
  | routineSkip
  | skip
  deriving Repr, DecidableEq

/-- Sort key of the `annqueue.sort(key=...)` call: the inclination component of
`get_svector` of the (current) aircraft a queue entry refers to.  `sv` is the
abstract geometry function. -/
def inclKey (sv : Aircraft → ℚ × ℚ × ℚ) (tracker : List (String × Aircraft))
    (i : String) : ℚ :=
  (sv ((getK tracker i).getD (Aircraft.init i 0))).2.1

/-- Embedding of the per-record scheduler evaluation (`main`, lines 590-624):
emergency preemption first, else the routine eligibility / cooldown / angle
check with the stable ascending re-sort of `annqueue`.  Returns the new state,
the branch taken, and the list of aircraft (keys) on which `get_svector` was
invoked, in call order: the eligibility call on the new aircraft, then one call
per queue element by the sort key. -/
def evalStep (sv : Aircraft → ℚ × ℚ × ℚ) (args : Args) (s : LoopState) (now : ℚ)
    (icao : String) : LoopState × EvalAction × List String :=
  match getK s.tracker icao with
  | none => (s, .skip, [])
  | some pl =>
    if pl.has_position && pl.is_emergency &&
       decide (600 < now - ((getK s.emerg icao).getD 0)) then
      ({ s with annqueue := s.annqueue ++ [icao],
                emerg := setK s.emerg icao now,
                anns := setK s.anns icao now,
                espeak := none }, .emergencyEnq, [])
    else if (pl.complete args.wait now || (decide (args.wait = 0) && pl.has_position)) &&
            decide (300 ≤ now - ((getK s.anns icao).getD 0)) then
      let incl := (sv pl).2.1
      if args.angle ≤ incl then
        ({ s with
           annqueue := (s.annqueue ++ [icao]).mergeSort
             (fun i j => decide (inclKey sv s.tracker i ≤ inclKey sv s.tracker j)),
           anns := setK s.anns icao now },
         .routineEnq, icao :: (s.annqueue ++ [icao]))
      else (s, .routineSkip, [icao])
    else (s, .skip, [])

/-- Embedding of the speaker servicing (`main`, lines 626-634): reap the
speaker if it has exited (`exited` is the externally observed `poll`), then, if
the slot is idle and the queue nonempty, pop the last queue entry and speak it
(`speak` renders the announcement, which invokes `get_svector` once).  Returns
the new state, the aircraft spoken (if any), and the `get_svector` call list. -/
def speakStep (s : LoopState) (exited : Bool) : LoopState × Option String × List String :=
  let esp : Option String :=
    match s.espeak with
    | some p => if exited then none else some p
    | none => none
  match esp with
  | some p => ({ s with espeak := some p }, none, [])
  | none =>
    match s.annqueue.getLast? with
    | none => ({ s with espeak := none }, none, [])
    | some n => ({ s with annqueue := s.annqueue.dropLast, espeak := some n }, some n, [n])

/-- One iteration of the main loop body (`main`, lines 582-634): read a line,
parse it, evaluate the scheduler when a (truthy) identity was returned, then
service the speaker slot.  Returns the new state, the `get_svector` call list
of the iteration, and whether the loop continues (`false` on `EOFError` and on
an uncaught field exception, both of which end the loop before the speaker
block runs). -/
def stepLoop (sv : Aircraft → ℚ × ℚ × ℚ) (args : Args) (s : LoopState)
    (line : String) (now : ℚ) (exited : Bool) : LoopState × List String × Bool :=
  match AircraftTracker.parse_sbs ⟨s.tracker⟩ line now with
  | .eof => (s, [], false)
  | .fieldError t2 _ => ({ s with tracker := t2.planedict }, [], false)
  | .badLine t2 =>
    let s1 := { s with tracker := t2.planedict }
    let r := speakStep s1 exited
    (r.1, r.2.2, true)
  | .ok t2 icao =>
    let s1 := { s with tracker := t2.planedict }
    if icao = "" then
      let r := speakStep s1 exited
      (r.1, r.2.2, true)
    else
      let e := evalStep sv args s1 now icao
      let r := speakStep e.1 exited
      (r.1, e.2.2 ++ r.2.2, true)

/-- Structural guard invariant of the scheduler: every entry of the pending
queue refers to a tracked aircraft whose position is known. -/
def QueueInv (s : LoopState) : Prop :=
  ∀ i ∈ s.annqueue, ∃ a, getK s.tracker i = some a ∧ a.has_position = true

/-- The eight observable data fields of an aircraft, as named by the spec
(`callsign` is the source's `id`; `groundTrack` / `groundSpeed` are `track` /
`velocity`). -/
inductive SField where
  | altitude
  | latitude
  | longitude
  | squawk
  | callsign
  | verticalRate
  | groundTrack
  | groundSpeed
  deriving Repr, DecidableEq

/-- The timestamp attributes of the source object.  Latitude and longitude are
both paired with the single `position` timestamp. -/
inductive TsName where
  | altitudeT
  | positionT
  | squawkT
  | callsignT
  | verticalRateT
  | groundTrackT
  | groundSpeedT
  deriving Repr, DecidableEq

/-- Which timestamp attribute a field is paired with in the source. -/
def SField.tsName : SField → TsName
  | .altitude => .altitudeT
  | .latitude => .positionT
  | .longitude => .positionT
  | .squawk => .squawkT
  | .callsign => .callsignT
  | .verticalRate => .verticalRateT
  | .groundTrack => .groundTrackT
  | .groundSpeed => .groundSpeedT

/-- The last-update timestamp paired with a field (reads the attribute the
source stamps for that field). -/
def fieldTs (a : Aircraft) : SField → ℚ
  | .altitude => a.altitude_ts
  | .latitude => a.position_ts
  | .longitude => a.position_ts
  | .squawk => a.squawk_ts
  | .callsign => a.id_ts
  | .verticalRate => a.vertical_rate_ts
  | .groundTrack => a.gt_ts
  | .groundSpeed => a.gs_ts

/-- Two aircraft agree on the value of a given field. -/
def fieldEq (a b : Aircraft) : SField → Prop
  | .altitude => a.altitude = b.altitude
  | .latitude => a.latitude = b.latitude
  | .longitude => a.longitude = b.longitude
  | .squawk => a.squawk = b.squawk
  | .callsign => a.id = b.id
  | .verticalRate => a.vertical_rate = b.vertical_rate
  | .groundTrack => a.track = b.track
  | .groundSpeed => a.velocity = b.velocity

/-- The eight single-field update operations of the source, as one sum type. -/
inductive UpdOp where
  | altitude
  | latitude
  | longitude
  | squawk
  | callsign
  | verticalRate
  | groundTrack
  | groundSpeed
  deriving Repr, DecidableEq

/-- The field an update operation targets. -/
def UpdOp.field : UpdOp → SField
  | .altitude => .altitude
  | .latitude => .latitude
  | .longitude => .longitude
  | .squawk => .squawk
  | .callsign => .callsign
  | .verticalRate => .verticalRate
  | .groundTrack => .groundTrack
  | .groundSpeed => .groundSpeed

/-- Dispatch an update operation to the corresponding source method
(`update_id` never fails; the numeric ones fail on a `ValueError`). -/
def applyUpd : UpdOp → Aircraft → String → ℚ → Option Aircraft
  | .altitude, a, v, t => a.update_altitude v t
  | .latitude, a, v, t => a.update_latitude v t
  | .longitude, a, v, t => a.update_longitude v t
  | .squawk, a, v, t => a.update_squawk v t
  | .callsign, a, v, t => some (a.update_id v t)
  | .verticalRate, a, v, t => a.update_vertical_rate v t
  | .groundTrack, a, v, t => a.update_ground_track v t
  | .groundSpeed, a, v, t => a.update_ground_speed v t

/-- Aircraft states reachable in the program: constructed by `__init__` at a
positive wall-clock time and mutated by successful update operations at
positive times (`time.time()` is positive). -/
inductive Reach : Aircraft → Prop
  | init (icao : String) (t : ℚ) (ht : 0 < t) : Reach (Aircraft.init icao t)
  | upd (op : UpdOp) (a : Aircraft) (v : String) (t : ℚ) (a2 : Aircraft)
      (ht : 0 < t) (ha : Reach a) (h : applyUpd op a v t = some a2) : Reach a2

/-- Rounding to the nearest multiple of 100, written from the spec's words
("rounded to the nearest 100 ft / fpm") for comparison against the source's
flooring. -/
def roundNearest100 (n : Int) : Int :=
  round ((n : ℚ) / 100) * 100

/-- The five data timestamps of `d_age`, as a list (for stating "the earliest
of the five timestamps"). -/
def dataTimestamps (a : Aircraft) : List ℚ :=
  [a.altitude_ts, a.position_ts, a.vertical_rate_ts, a.gt_ts, a.gs_ts]


/-- Whether the update mapped to an SBS offset raises a `ValueError` on the
given field text.  Failure depends only on the text: the numeric offsets fail
exactly when their `int` / `float` parse fails, and the callsign offset never
fails. -/
def fieldFails (off : Nat) (v : String) : Bool :=
  match off with
  | 11 | 12 | 13 | 16 | 17 => (pyParseInt v).isNone
  | 14 | 15 => (pyParseFloat v).isNone
  | _ => false

/-- Timestamp bookkeeping invariant of reachable aircraft: every data
timestamp is nonnegative and is positive exactly when the corresponding field
has been observed at least once (the shared position timestamp is positive
exactly when latitude or longitude has been observed). -/
def tsInv (a : Aircraft) : Prop :=
  0 ≤ a.altitude_ts ∧ 0 ≤ a.position_ts ∧ 0 ≤ a.vertical_rate_ts ∧
  0 ≤ a.gt_ts ∧ 0 ≤ a.gs_ts ∧
  (0 < a.altitude_ts ↔ a.altitude.isSome = true) ∧
  (0 < a.position_ts ↔ (a.latitude.isSome = true ∨ a.longitude.isSome = true)) ∧
  (0 < a.vertical_rate_ts ↔ a.vertical_rate.isSome = true) ∧
  (0 < a.gt_ts ↔ a.track.isSome = true) ∧
  (0 < a.gs_ts ↔ a.velocity.isSome = true)

/-! ### Helper lemmas -/

lemma getK_setK_self {κ α : Type} [DecidableEq κ] (d : List (κ × α)) (k : κ) (v : α) :
    getK (setK d k v) k = some v := by
  induction d with
  | nil => simp [setK, getK]
  | cons p rest ih =>
    obtain ⟨k2, v2⟩ := p
    by_cases hk : k2 = k
    · subst hk; simp [setK, getK]
    · simp [setK, getK, hk, ih]

lemma getK_setK_ne {κ α : Type} [DecidableEq κ] (d : List (κ × α)) (k k2 : κ) (v : α)
    (h : k2 ≠ k) : getK (setK d k v) k2 = getK d k2 := by
  induction d with
  | nil => simp [setK, getK, Ne.symm h]
  | cons p rest ih =>
    obtain ⟨k3, v3⟩ := p
    simp only [setK]
    by_cases hk : k3 = k
    · subst hk
      simp [getK, Ne.symm h]
    · simp only [if_neg hk, getK]
      by_cases hk2 : k3 = k2 <;> simp [hk2, ih]

lemma keys_setK {κ α : Type} [DecidableEq κ] (d : List (κ × α)) (k : κ) (v : α) :
    (setK d k v).map Prod.fst =
      (if k ∈ d.map Prod.fst then d.map Prod.fst else d.map Prod.fst ++ [k]) := by
  induction d with
  | nil => simp [setK]
  | cons p rest ih =>
    obtain ⟨k2, v2⟩ := p
    by_cases hk : k2 = k
    · subst hk; simp [setK]
    · simp only [setK, if_neg hk, List.map_cons, List.mem_cons, ih]
      by_cases hmem : k ∈ rest.map Prod.fst
      · simp [hmem, Ne.symm hk]
      · simp [hmem, Ne.symm hk]

lemma nodup_keys_setK {κ α : Type} [DecidableEq κ] (d : List (κ × α)) (k : κ) (v : α)
    (h : (d.map Prod.fst).Nodup) : ((setK d k v).map Prod.fst).Nodup := by
  rw [keys_setK]
  by_cases hmem : k ∈ d.map Prod.fst
  · simpa [hmem] using h
  · simp [hmem, List.nodup_append, h]

/-! ### C10: totality of the cardinal-direction lookup -/

/-- C10: the compass lookup is total on its input domain.  For every heading
`h` with `0 ≤ h ≤ 360` the index `⌊h / 22.5⌋` is in range for the 17-entry
table `CARDINALS` (which duplicates "north" at both ends, so the boundary
heading `360` still maps to "north"), and the absent heading maps to the
string "unknown" rather than failing. -/
theorem c10_cardinal_total (h : ℚ) (h0 : 0 ≤ h) (h360 : h ≤ 360) :
    (cardinal (some h)).isSome = true ∧
    CARDINALS.length = 17 ∧
    cardinal (some 360) = some "north" ∧
    cardinal none = some "unknown" ∧
    CARDINALS[0]? = some "north" ∧ CARDINALS[16]? = some "north" := by
  have hlen : CARDINALS.length = 17 := by decide
  have hidx : (⌊h / (22.5 : ℚ)⌋).toNat < 17 := by
    have hle : h / (22.5 : ℚ) ≤ 16 := by
      rw [div_le_iff₀ (by norm_num : (0:ℚ) < 22.5)]
      linarith
    have : ⌊h / (22.5 : ℚ)⌋ ≤ 16 := by
      calc ⌊h / (22.5 : ℚ)⌋ ≤ ⌊(16 : ℚ)⌋ := Int.floor_le_floor hle
      _ = 16 := by norm_num
    omega
  have h360v : cardinal (some 360) = some "north" := by
    have : (360 : ℚ) / (22.5 : ℚ) = 16 := by norm_num
    simp only [cardinal, this]
    norm_num
    decide
  refine ⟨?_, hlen, h360v, by decide, by decide, by decide⟩
  simp only [cardinal]
  rw [List.getElem?_eq_getElem (by rw [hlen]; exact hidx)]
  simp

/-- Witness for C10 at the concrete heading 100: `0 ≤ 100 ≤ 360` holds and the
lookup succeeds. -/
theorem c10_cardinal_total_witness :
    (cardinal (some 100)).isSome = true ∧
    CARDINALS.length = 17 ∧
    cardinal (some 360) = some "north" ∧
    cardinal none = some "unknown" ∧
    CARDINALS[0]? = some "north" ∧ CARDINALS[16]? = some "north" :=
  c10_cardinal_total 100 (by norm_num) (by norm_num)

/-! ### C6: parse termination signal and short-record handling -/

/-- C6: `parse_sbs` raises `EOFError` (the `eof` outcome) exactly when the
input line is the empty string, and every non-empty line with fewer than 18
comma-separated fields is discarded whole: the tracker is returned unchanged
with no identity (the `badLine` outcome) and nothing is raised. -/
theorem c6_parse_eof_and_short_lines (t : AircraftTracker) (line : String) (now : ℚ) :
    (t.parse_sbs line now = .eof ↔ line = "") ∧
    (line ≠ "" → (pySplit ',' line).length < 18 → t.parse_sbs line now = .badLine t) := by
  constructor
  · constructor
    · intro h
      by_contra hne
      simp only [AircraftTracker.parse_sbs, if_neg hne] at h
      split at h
      · exact ParseResult.noConfusion h
      · split at h <;> exact ParseResult.noConfusion h
    · intro h
      simp [AircraftTracker.parse_sbs, h]
  · intro h1 h2
    simp [AircraftTracker.parse_sbs, h1, h2]

/-- Witness for C6: the two-field line `"MSG,3"` is non-empty, has fewer than
18 fields, and is discarded with the tracker unchanged. -/
theorem c6_parse_eof_and_short_lines_witness :
    AircraftTracker.parse_sbs trackerInit "MSG,3" 5 = .badLine trackerInit :=
  (c6_parse_eof_and_short_lines trackerInit "MSG,3" 5).2 (by decide) (by decide)

/-! ### C8: announcement rounding -/

lemma climb_ne_level (s : String) : "climbing at " ++ s ≠ "in level flight" := by
  intro h
  have h2 := congrArg (fun x => x.data.head?) h
  simp [String.data_append] at h2

lemma descend_ne_level (s : String) : "descending at " ++ s ≠ "in level flight" := by
  intro h
  have h2 := congrArg (fun x => x.data.head?) h
  simp [String.data_append] at h2

lemma fdiv_mul_bounds (v b : Int) (hb : 0 < b) :
    v.fdiv b * b ≤ v ∧ v < v.fdiv b * b + b ∧ b ∣ v.fdiv b * b := by
  rw [Int.fdiv_eq_ediv _ (le_of_lt hb)]
  refine ⟨?_, ?_, dvd_mul_left b (v / b)⟩
  · have h1 := Int.ediv_add_emod v b
    have h2 := Int.emod_nonneg v (ne_of_gt hb)
    linarith
  · have h1 := Int.ediv_add_emod v b
    have h2 := Int.emod_lt_of_pos v hb
    linarith

/-- C8 (amended): in the routine announcement phrases, the spoken ground speed
is the ground speed floored to a multiple of 10 knots (the greatest multiple of
10 not exceeding it), the spoken altitude is the altitude floored to the
greatest multiple of 100 ft not exceeding it, and the spoken climb/descent rate
is the vertical rate floored (toward minus infinity, Python `//`) to a multiple
of 100 fpm — "in level flight" is spoken exactly when the floored rate is zero
(the rate lies in `[0, 100)`), and "vertical speed unknown" when the rate is
absent. -/
theorem c8_announcement_rounding (v alt vr : Int) :
    (∃ w, velText (some v) = toString w ++ " knots" ∧
      10 ∣ w ∧ w ≤ v ∧ v < w + 10) ∧
    (∃ w, altText alt = "altitude " ++ toString w ++ " feet" ∧
      100 ∣ w ∧ w ≤ alt ∧ alt < w + 100) ∧
    vrText none = "vertical speed unknown" ∧
    (vrText (some vr) = "in level flight" ↔ 0 ≤ vr ∧ vr < 100) ∧
    (100 ≤ vr → ∃ w, vrText (some vr) = "climbing at " ++ toString w ++ " feet per minute" ∧
      100 ∣ w ∧ w ≤ vr ∧ vr < w + 100) ∧
    (vr < 0 → ∃ w : Int, vrText (some vr) =
        "descending at " ++ toString w.natAbs ++ " feet per minute" ∧
      100 ∣ w ∧ w ≤ vr ∧ vr < w + 100) := by
  obtain ⟨hv1, hv2, hv3⟩ := fdiv_mul_bounds v 10 (by norm_num)
  obtain ⟨ha1, ha2, ha3⟩ := fdiv_mul_bounds alt 100 (by norm_num)
  obtain ⟨hr1, hr2, hr3⟩ := fdiv_mul_bounds vr 100 (by norm_num)
  refine ⟨⟨_, rfl, hv3, hv1, hv2⟩, ⟨_, rfl, ha3, ha1, ha2⟩, rfl, ?_, ?_, ?_⟩
  · constructor
    · intro h
      simp only [vrText] at h
      split_ifs at h with hpos hneg
      · exact absurd h (climb_ne_level _)
      · exact absurd h (descend_ne_level _)
      · push_neg at hpos hneg
        constructor
        · by_contra hv0
          push_neg at hv0
          have : vr.fdiv 100 * 100 < 0 := by
            rcases lt_or_eq_of_le (le_antisymm hpos hneg ▸ le_refl _ : vr.fdiv 100 * 100 ≤ 0) with h2 | h2
            · exact h2
            · omega
          omega
        · omega
    · intro ⟨hv0, hv100⟩
      have hz : vr.fdiv 100 * 100 = 0 := by omega
      simp [vrText, hz]
  · intro hge
    have hpos : vr.fdiv 100 * 100 > 0 := by omega
    exact ⟨_, by simp [vrText, hpos], hr3, hr1, hr2⟩
  · intro hneg
    have hlt : vr.fdiv 100 * 100 < 0 := by omega
    refine ⟨vr.fdiv 100 * 100, by simp [vrText, hlt, not_lt_of_lt hlt], hr3, hr1, hr2⟩

/-- Counterexample to C8 as stated: at altitude 10099 ft the program speaks
"altitude 10000 feet" (flooring), while rounding to the *nearest* 100 ft gives
10100 — so the spoken altitude is not the altitude rounded to the nearest
100 ft. -/
theorem c8_counterexample :
    altText 10099 = "altitude 10000 feet" ∧
    roundNearest100 10099 = 10100 ∧
    altText 10099 ≠ "altitude " ++ toString (roundNearest100 10099) ++ " feet" := by
  have hr : roundNearest100 10099 = 10100 := by
    have h1 : ((10099 : Int) : ℚ) / 100 + 1 / 2 = 101 + 49 / 100 := by norm_num
    have h2 : ⌊(101 : ℚ) + 49 / 100⌋ = 101 := by
      rw [Int.floor_eq_iff] <;> norm_num
    simp only [roundNearest100, round_eq, h1, h2]
    norm_num
  refine ⟨by decide, hr, ?_⟩
  rw [hr]
  decide

/-- Witness for C8 at speed 205 kt, altitude 10099 ft and rate 150 fpm: the
climbing hypothesis `100 ≤ 150` is discharged and the floored phrases exist. -/
theorem c8_announcement_rounding_witness :
    ∃ w, vrText (some 150) = "climbing at " ++ toString w ++ " feet per minute" ∧
      100 ∣ w ∧ w ≤ 150 ∧ (150 : Int) < w + 100 :=
  (c8_announcement_rounding 205 10099 150).2.2.2.2.1 (by norm_num)

/-! ### C3: field-update isolation -/

/-- Counterexample to C3 as stated: updating latitude changes the last-update
timestamp of the *longitude* field (they share the single `position_ts`), so an
update does not leave every other field's timestamp unchanged. -/
theorem c3_counterexample :
    ∃ a2, Aircraft.update_latitude (Aircraft.init "ABC123" 1) "40" 5 = some a2 ∧
      SField.longitude ≠ SField.latitude ∧
      fieldEq (Aircraft.init "ABC123" 1) a2 SField.longitude ∧
      fieldTs a2 SField.longitude ≠ fieldTs (Aircraft.init "ABC123" 1) SField.longitude :=
  ⟨_, rfl, by decide, rfl, by decide⟩

/-- C3 (amended): a successful single-field update changes only its own field's
value, its own timestamp attribute and `last_ts` — with the one exception that
latitude and longitude share the single position timestamp, so updating either
restamps the timestamp paired with both.  Every field other than the target
keeps its value, and every field whose timestamp attribute differs from the
target's keeps its timestamp. -/
theorem c3_update_isolation (op : UpdOp) (a : Aircraft) (v : String) (t : ℚ)
    (a2 : Aircraft) (h : applyUpd op a v t = some a2) :
    (∀ f, f ≠ op.field → fieldEq a a2 f) ∧
    (∀ f, f.tsName ≠ op.field.tsName → fieldTs a2 f = fieldTs a f) ∧
    fieldTs a2 op.field = t ∧ a2.last_ts = t := by
  cases op <;>
  simp only [applyUpd, Aircraft.update_altitude, Aircraft.update_latitude,
    Aircraft.update_longitude, Aircraft.update_squawk, Aircraft.update_id,
    Aircraft.update_vertical_rate, Aircraft.update_ground_track,
    Aircraft.update_ground_speed, Option.map_eq_some', Option.some.injEq] at h <;>
  first
    | (obtain ⟨n, hn, h2⟩ := h
       subst h2
       refine ⟨?_, ?_, rfl, rfl⟩ <;> intro f hf <;> cases f <;>
         simp_all [fieldEq, fieldTs, SField.tsName, UpdOp.field])
    | (subst h
       refine ⟨?_, ?_, rfl, rfl⟩ <;> intro f hf <;> cases f <;>
         simp_all [fieldEq, fieldTs, SField.tsName, UpdOp.field])

/-- Witness for C3 (amended) at a concrete squawk update: the altitude value
and timestamp are untouched while the squawk timestamp is stamped. -/
theorem c3_update_isolation_witness :
    ∃ a2, applyUpd UpdOp.squawk (Aircraft.init "A" 1) "7700" 3 = some a2 ∧
      fieldEq (Aircraft.init "A" 1) a2 SField.altitude ∧
      fieldTs a2 SField.altitude = fieldTs (Aircraft.init "A" 1) SField.altitude ∧
      fieldTs a2 SField.squawk = 3 :=
  ⟨_, rfl,
    (c3_update_isolation UpdOp.squawk (Aircraft.init "A" 1) "7700" 3 _ rfl).1
      SField.altitude (by decide),
    (c3_update_isolation UpdOp.squawk (Aircraft.init "A" 1) "7700" 3 _ rfl).2.1
      SField.altitude (by decide),
    (c3_update_isolation UpdOp.squawk (Aircraft.init "A" 1) "7700" 3 _ rfl).2.2.1⟩

/-! ### C2: malformed numeric fields -/

lemma applySBSField_none_iff (off : Nat) (a : Aircraft) (v : String) (now : ℚ) :
    applySBSField off a v now = none ↔ fieldFails off v = true := by
  unfold applySBSField fieldFails
  split <;>
  simp_all [Aircraft.update_altitude, Aircraft.update_ground_speed,
    Aircraft.update_ground_track, Aircraft.update_latitude, Aircraft.update_longitude,
    Aircraft.update_vertical_rate, Aircraft.update_squawk,
    Option.map_eq_none', Option.isNone_iff_eq_none]

lemma runUpdates_error_iff (fields : List String) (now : ℚ) (offs : List Nat)
    (a : Aircraft) :
    (∃ a2, runUpdates fields now offs a = .error a2) ↔
      ∃ off ∈ offs, fields.getD off "" ≠ "" ∧ fieldFails off (fields.getD off "") = true := by
  induction offs generalizing a with
  | nil => simp [runUpdates]
  | cons off rest ih =>
    simp only [List.getD_eq_getElem?_getD] at ih ⊢
    simp only [runUpdates, List.getD_eq_getElem?_getD, List.mem_cons, ne_eq]
    by_cases hv : fields[off]?.getD "" = ""
    · simp [hv, ih]
    · rcases hap : applySBSField off a (fields[off]?.getD "") now with _ | a3
      · have hf := (applySBSField_none_iff off a (fields[off]?.getD "") now).mp hap
        simp [hv, hap, hf]
      · have hf : ¬ fieldFails off (fields[off]?.getD "") = true := by
          intro hc
          rw [← applySBSField_none_iff off a (fields[off]?.getD "") now] at hc
          rw [hap] at hc
          exact Option.noConfusion hc
        simp [hv, hap, ih, hf]

/-- Counterexample to C2 as stated: in a full 18-field record whose altitude
field (offset 11) is the malformed text `"xx"` and whose squawk field (offset
17) is the well-formed `"7700"`, the `ValueError` escapes `parse_sbs`
(the `fieldError` outcome) and the later squawk field is *not* applied — the
failure is not local to the malformed field and the record is aborted. -/
theorem c2_counterexample :
    AircraftTracker.parse_sbs trackerInit
        "MSG,3,1,1,ABC123,1,a,b,c,d,CALL1,xx,200,90,40,-74,0,7700" 5
      = .fieldError ⟨[("ABC123", (Aircraft.init "ABC123" 5).update_id "CALL1" 5)]⟩ "ABC123" ∧
    ((Aircraft.init "ABC123" 5).update_id "CALL1" 5).squawk = none := by
  constructor
  · decide
  · rfl

/-- C2 (amended): a malformed mapped numeric field does not fail locally — the
`ValueError` raised by the update escapes `parse_sbs`, aborting the rest of the
record (the `fieldError` outcome), instead of being caught and treated as
"ignore this field". -/
theorem c2_field_exception_aborts (t : AircraftTracker) (line : String) (now : ℚ)
    (h0 : line ≠ "") (h1 : ¬ (pySplit ',' line).length < 18)
    (h2 : ∃ off ∈ SBS_OFFSETS, (pySplit ',' line).getD off "" ≠ "" ∧
      fieldFails off ((pySplit ',' line).getD off "") = true) :
    ∃ t2 icao, t.parse_sbs line now = .fieldError t2 icao := by
  obtain ⟨a2, he⟩ := (runUpdates_error_iff (pySplit ',' line) now SBS_OFFSETS
    ((getK t.planedict (pyUpper ((pySplit ',' line).getD 4 ""))).getD
      (Aircraft.init (pyUpper ((pySplit ',' line).getD 4 "")) now))).mpr h2
  exact ⟨⟨setK t.planedict (pyUpper ((pySplit ',' line).getD 4 "")) a2⟩,
    pyUpper ((pySplit ',' line).getD 4 ""),
    by simp only [AircraftTracker.parse_sbs, if_neg h0, if_neg h1, he]⟩

/-- Witness for C2 (amended): a full-length record whose vertical-rate field
(offset 16) holds the malformed text `"zz"` makes `parse_sbs` fail with the
exception outcome. -/
theorem c2_field_exception_aborts_witness :
    ∃ t2 icao, AircraftTracker.parse_sbs trackerInit
      "MSG,3,1,1,abc9,1,a,b,c,d,CALL2,9000,150,45,39,-75,zz,1200" 7 = .fieldError t2 icao :=
  c2_field_exception_aborts trackerInit
    "MSG,3,1,1,abc9,1,a,b,c,d,CALL2,9000,150,45,39,-75,zz,1200" 7
    (by decide) (by decide) ⟨16, by decide, by decide, by decide⟩

/-! ### C7: one tracker entry per identity -/

lemma parse_shape (t : AircraftTracker) (line : String) (now : ℚ)
    (t2 : AircraftTracker) (icao : String)
    (h : t.parse_sbs line now = .ok t2 icao ∨ t.parse_sbs line now = .fieldError t2 icao) :
    icao = pyUpper ((pySplit ',' line).getD 4 "") ∧
    ∃ a2, t2.planedict = setK t.planedict icao a2 := by
  by_cases h0 : line = ""
  · simp [AircraftTracker.parse_sbs, h0] at h
  by_cases h1 : (pySplit ',' line).length < 18
  · simp [AircraftTracker.parse_sbs, h0, h1] at h
  simp only [AircraftTracker.parse_sbs, if_neg h0, if_neg h1] at h
  rcases hr : runUpdates (pySplit ',' line) now SBS_OFFSETS
      ((getK t.planedict (pyUpper ((pySplit ',' line).getD 4 ""))).getD
        (Aircraft.init (pyUpper ((pySplit ',' line).getD 4 "")) now)) with a2 | a2 <;>
    rw [hr] at h <;> rcases h with h | h <;>
      simp only [ParseResult.ok.injEq, ParseResult.fieldError.injEq,
        reduceCtorEq, false_and] at h <;>
    obtain ⟨ht2, hic⟩ := h <;> subst hic <;> exact ⟨rfl, a2, ht2 ▸ rfl⟩

lemma parse_keys (t : AircraftTracker) (line : String) (now : ℚ)
    (t2 : AircraftTracker) (icao : String)
    (h : t.parse_sbs line now = .ok t2 icao ∨ t.parse_sbs line now = .fieldError t2 icao) :
    t2.planedict.map Prod.fst =
      (if icao ∈ t.planedict.map Prod.fst then t.planedict.map Prod.fst
       else t.planedict.map Prod.fst ++ [icao]) := by
  obtain ⟨-, a2, ht2⟩ := parse_shape t line now t2 icao h
  rw [ht2, keys_setK]

lemma parse_badLine (t : AircraftTracker) (line : String) (now : ℚ)
    (t2 : AircraftTracker) (h : t.parse_sbs line now = .badLine t2) : t2 = t := by
  by_cases h0 : line = ""
  · simp [AircraftTracker.parse_sbs, h0] at h
  by_cases h1 : (pySplit ',' line).length < 18
  · simp [AircraftTracker.parse_sbs, h0, h1] at h
    exact h.symm
  simp only [AircraftTracker.parse_sbs, if_neg h0, if_neg h1] at h
  rcases hr : runUpdates (pySplit ',' line) now SBS_OFFSETS
      ((getK t.planedict (pyUpper ((pySplit ',' line).getD 4 ""))).getD
        (Aircraft.init (pyUpper ((pySplit ',' line).getD 4 "")) now)) with a2 | a2 <;>
    rw [hr] at h <;> exact ParseResult.noConfusion h

lemma parse_nodup (t : AircraftTracker) (line : String) (now : ℚ)
    (hn : (t.planedict.map Prod.fst).Nodup) :
    ∀ t2, (∃ icao, t.parse_sbs line now = .ok t2 icao ∨
            t.parse_sbs line now = .fieldError t2 icao) ∨ t.parse_sbs line now = .badLine t2 →
      (t2.planedict.map Prod.fst).Nodup := by
  rintro t2 (⟨icao, h⟩ | h)
  · rw [parse_keys t line now t2 icao h]
    split_ifs with hmem2
    · exact hn
    · simp [List.nodup_append, hn, hmem2]
  · rw [parse_badLine t line now t2 h]
    exact hn

lemma runLines_nodup (inputs : List (String × ℚ)) :
    ∀ t, (t.planedict.map Prod.fst).Nodup →
      (((runLines t inputs).planedict.map Prod.fst)).Nodup := by
  induction inputs with
  | nil => intro t hn; exact hn
  | cons p rest ih =>
    intro t hn
    obtain ⟨line, now⟩ := p
    simp only [runLines]
    rcases hp : t.parse_sbs line now with _ | t2 | ⟨t2, icao⟩ | ⟨t2, icao⟩
    · exact hn
    · exact ih t2 (parse_nodup t line now hn t2 (Or.inr hp))
    · exact ih t2 (parse_nodup t line now hn t2 (Or.inl ⟨icao, Or.inl hp⟩))
    · exact parse_nodup t line now hn t2 (Or.inl ⟨icao, Or.inr hp⟩)

/-- C7: after any sequence of parsed records, the tracker holds exactly one
entry per distinct identity ever seen.  The key list of a reachable tracker
has no duplicates; a record that returns identity `icao` (field 4 uppercased,
also in the exception outcome, since `setdefault` runs first) leaves `icao`
present exactly once, inserting a fresh entry only when the identity was
unseen and otherwise leaving the key set unchanged (that one entry is mutated
in place). -/
theorem c7_unique_entry_per_identity (inputs : List (String × ℚ)) (line : String)
    (now : ℚ) (t2 : AircraftTracker) (icao : String)
    (h : (runLines trackerInit inputs).parse_sbs line now = .ok t2 icao ∨
         (runLines trackerInit inputs).parse_sbs line now = .fieldError t2 icao) :
    ((runLines trackerInit inputs).planedict.map Prod.fst).Nodup ∧
    icao = pyUpper ((pySplit ',' line).getD 4 "") ∧
    icao ∈ t2.planedict.map Prod.fst ∧
    (t2.planedict.map Prod.fst).count icao = 1 ∧
    t2.planedict.map Prod.fst =
      (if icao ∈ (runLines trackerInit inputs).planedict.map Prod.fst
       then (runLines trackerInit inputs).planedict.map Prod.fst
       else (runLines trackerInit inputs).planedict.map Prod.fst ++ [icao]) := by
  have hn : ((runLines trackerInit inputs).planedict.map Prod.fst).Nodup :=
    runLines_nodup inputs trackerInit (by simp [trackerInit])
  have hk := parse_keys (runLines trackerInit inputs) line now t2 icao h
  have hmem : icao ∈ t2.planedict.map Prod.fst := by
    rw [hk]
    split
    · assumption
    · simp
  have hn2 : (t2.planedict.map Prod.fst).Nodup :=
    parse_nodup (runLines trackerInit inputs) line now hn t2 (Or.inl ⟨icao, h⟩)
  exact ⟨hn, (parse_shape _ line now t2 icao h).1, hmem,
    List.count_eq_one_of_mem hn2 hmem, hk⟩

/-- Witness for C7: parsing one full record for the fresh identity `abc123`
(uppercased to `ABC123`) from the empty tracker inserts exactly one entry. -/
theorem c7_unique_entry_per_identity_witness :
    ∃ t2, (AircraftTracker.parse_sbs (runLines trackerInit [])
        "MSG,3,1,1,abc123,1,a,b,c,d,CALL1,10000,200,90,40,-74,0,7700" 6 = .ok t2 "ABC123" ∧
      (t2.planedict.map Prod.fst).count "ABC123" = 1) := by
  refine ⟨_, rfl, ?_⟩
  exact (c7_unique_entry_per_identity []
    "MSG,3,1,1,abc123,1,a,b,c,d,CALL1,10000,200,90,40,-74,0,7700" 6 _ "ABC123"
    (Or.inl rfl)).2.2.2.1

/-! ### C9: data age -/

lemma reach_tsInv (a : Aircraft) (h : Reach a) : tsInv a := by
  induction h with
  | init icao t ht => simp [tsInv, Aircraft.init]
  | upd op a v t a2 ht ha hap ih =>
    have ht2 : 0 ≤ t := le_of_lt ht
    obtain ⟨i1, i2, i3, i4, i5, i6, i7, i8, i9, i10⟩ := ih
    cases op with
    | altitude =>
      simp only [applyUpd, Aircraft.update_altitude, Option.map_eq_some'] at hap
      obtain ⟨n, hn, hap⟩ := hap
      subst hap
      refine ⟨?_, ?_, ?_, ?_, ?_, ?_, ?_, ?_, ?_, ?_⟩ <;> simp_all [tsInv]
    | latitude =>
      simp only [applyUpd, Aircraft.update_latitude, Option.map_eq_some'] at hap
      obtain ⟨n, hn, hap⟩ := hap
      subst hap
      refine ⟨?_, ?_, ?_, ?_, ?_, ?_, ?_, ?_, ?_, ?_⟩ <;> simp_all [tsInv]
    | longitude =>
      simp only [applyUpd, Aircraft.update_longitude, Option.map_eq_some'] at hap
      obtain ⟨n, hn, hap⟩ := hap
      subst hap
      refine ⟨?_, ?_, ?_, ?_, ?_, ?_, ?_, ?_, ?_, ?_⟩ <;> simp_all [tsInv]
    | squawk =>
      simp only [applyUpd, Aircraft.update_squawk, Option.map_eq_some'] at hap
      obtain ⟨n, hn, hap⟩ := hap
      subst hap
      refine ⟨?_, ?_, ?_, ?_, ?_, ?_, ?_, ?_, ?_, ?_⟩ <;> simp_all [tsInv]
    | callsign =>
      simp only [applyUpd, Aircraft.update_id, Option.some.injEq] at hap
      subst hap
      refine ⟨?_, ?_, ?_, ?_, ?_, ?_, ?_, ?_, ?_, ?_⟩ <;> simp_all [tsInv]
    | verticalRate =>
      simp only [applyUpd, Aircraft.update_vertical_rate, Option.map_eq_some'] at hap
      obtain ⟨n, hn, hap⟩ := hap
      subst hap
      refine ⟨?_, ?_, ?_, ?_, ?_, ?_, ?_, ?_, ?_, ?_⟩ <;> simp_all [tsInv]
    | groundTrack =>
      simp only [applyUpd, Aircraft.update_ground_track, Option.map_eq_some'] at hap
      obtain ⟨n, hn, hap⟩ := hap
      subst hap
      refine ⟨?_, ?_, ?_, ?_, ?_, ?_, ?_, ?_, ?_, ?_⟩ <;> simp_all [tsInv]
    | groundSpeed =>
      simp only [applyUpd, Aircraft.update_ground_speed, Option.map_eq_some'] at hap
      obtain ⟨n, hn, hap⟩ := hap
      subst hap
      refine ⟨?_, ?_, ?_, ?_, ?_, ?_, ?_, ?_, ?_, ?_⟩ <;> simp_all [tsInv]

/-- C9: for reachable aircraft, `d_age` equals the current time minus the
earliest of the five data timestamps (altitude, position, vertical rate,
ground track, ground speed); those timestamps are all positive exactly when
each contributing field has been observed at least once (latitude and
longitude share the position timestamp, stamped by either); and while any
contributing field is still unobserved, `d_age` degenerates to the full clock
value `now` — the measure is meaningful only once all five have been set. -/
theorem c9_data_age (a : Aircraft) (ha : Reach a) (now : ℚ) :
    (∃ t0 ∈ dataTimestamps a, a.d_age now = now - t0 ∧ ∀ t1 ∈ dataTimestamps a, t0 ≤ t1) ∧
    ((∀ t1 ∈ dataTimestamps a, 0 < t1) ↔
      (a.altitude.isSome = true ∧ (a.latitude.isSome = true ∨ a.longitude.isSome = true) ∧
       a.vertical_rate.isSome = true ∧ a.track.isSome = true ∧ a.velocity.isSome = true)) ∧
    (¬ (a.altitude.isSome = true ∧ (a.latitude.isSome = true ∨ a.longitude.isSome = true) ∧
        a.vertical_rate.isSome = true ∧ a.track.isSome = true ∧ a.velocity.isSome = true) →
      a.d_age now = now) := by
  obtain ⟨i1, i2, i3, i4, i5, i6, i7, i8, i9, i10⟩ := reach_tsInv a ha
  set m := min a.altitude_ts (min a.position_ts (min a.vertical_rate_ts (min a.gt_ts a.gs_ts)))
    with hmdef
  have hd : a.d_age now = now - m := rfl
  have hm : m = a.altitude_ts ∨ m = a.position_ts ∨ m = a.vertical_rate_ts ∨
      m = a.gt_ts ∨ m = a.gs_ts := by
    rcases min_choice a.altitude_ts
        (min a.position_ts (min a.vertical_rate_ts (min a.gt_ts a.gs_ts))) with h1 | h1
    · exact Or.inl h1
    rcases min_choice a.position_ts (min a.vertical_rate_ts (min a.gt_ts a.gs_ts)) with h2 | h2
    · exact Or.inr (Or.inl (h1.trans h2))
    rcases min_choice a.vertical_rate_ts (min a.gt_ts a.gs_ts) with h3 | h3
    · exact Or.inr (Or.inr (Or.inl ((h1.trans h2).trans h3)))
    rcases min_choice a.gt_ts a.gs_ts with h4 | h4
    · exact Or.inr (Or.inr (Or.inr (Or.inl (((h1.trans h2).trans h3).trans h4))))
    · exact Or.inr (Or.inr (Or.inr (Or.inr (((h1.trans h2).trans h3).trans h4))))
  have hb : ∀ t1 ∈ dataTimestamps a, m ≤ t1 := by
    intro t1 ht1
    simp only [dataTimestamps, List.mem_cons, List.not_mem_nil, or_false] at ht1
    rcases ht1 with rfl | rfl | rfl | rfl | rfl
    · exact min_le_left _ _
    · exact le_trans (min_le_right _ _) (min_le_left _ _)
    · exact le_trans (min_le_right _ _) (le_trans (min_le_right _ _) (min_le_left _ _))
    · exact le_trans (min_le_right _ _) (le_trans (min_le_right _ _)
        (le_trans (min_le_right _ _) (min_le_left _ _)))
    · exact le_trans (min_le_right _ _) (le_trans (min_le_right _ _)
        (le_trans (min_le_right _ _) (min_le_right _ _)))
  have hmem : m ∈ dataTimestamps a := by
    rcases hm with h | h | h | h | h <;> rw [h] <;> simp [dataTimestamps]
  have h2 : (∀ t1 ∈ dataTimestamps a, 0 < t1) ↔
      (a.altitude.isSome = true ∧ (a.latitude.isSome = true ∨ a.longitude.isSome = true) ∧
       a.vertical_rate.isSome = true ∧ a.track.isSome = true ∧ a.velocity.isSome = true) := by
    simp only [dataTimestamps, List.mem_cons, List.not_mem_nil, or_false,
      forall_eq_or_imp, forall_eq]
    constructor
    · rintro ⟨p1, p2, p3, p4, p5⟩
      exact ⟨i6.mp p1, i7.mp p2, i8.mp p3, i9.mp p4, i10.mp p5⟩
    · rintro ⟨f1, f2, f3, f4, f5⟩
      exact ⟨i6.mpr f1, i7.mpr f2, i8.mpr f3, i9.mpr f4, i10.mpr f5⟩
  refine ⟨⟨m, hmem, hd, hb⟩, h2, ?_⟩
  intro hnot
  have hnot2 : ¬ ∀ t1 ∈ dataTimestamps a, 0 < t1 := fun hl => hnot (h2.mp hl)
  push_neg at hnot2
  obtain ⟨t1, ht1, hle⟩ := hnot2
  have hm0 : 0 ≤ m := le_min i1 (le_min i2 (le_min i3 (le_min i4 i5)))
  have hz : m = 0 := le_antisymm (le_trans (hb t1 ht1) hle) hm0
  rw [hd, hz, sub_zero]

/-- Witness for C9: a freshly constructed aircraft is reachable (time 1 > 0),
has no contributing field set, and its `d_age` at time 5 degenerates to 5. -/
theorem c9_data_age_witness : (Aircraft.init "A" 1).d_age 5 = 5 :=
  (c9_data_age (Aircraft.init "A" 1) (Reach.init "A" 1 (by norm_num)) 5).2.2
    (by simp [Aircraft.init])

/-! ### C1: emergency preemption -/

/-- C1: processing a record for an aircraft with an emergency squawk, a known
position and no emergency announcement in the preceding 600 s takes the
emergency branch: the aircraft is appended to the pending queue, both cooldown
maps are stamped with `now`, and the speaker slot is cleared (any active
speaker is terminated) — so in the same iteration the speaker-servicing step
dequeues exactly this aircraft and hands it to the speaker, ahead of every
routine entry already pending (which all remain queued behind it). -/
theorem c1_emergency_preempts (sv : Aircraft → ℚ × ℚ × ℚ) (args : Args) (s : LoopState)
    (now : ℚ) (icao : String) (pl : Aircraft)
    (hpl : getK s.tracker icao = some pl)
    (hpos : pl.has_position = true)
    (hem : pl.is_emergency = true)
    (hcd : 600 < now - ((getK s.emerg icao).getD 0)) :
    (evalStep sv args s now icao).2.1 = .emergencyEnq ∧
    (evalStep sv args s now icao).1.annqueue = s.annqueue ++ [icao] ∧
    (evalStep sv args s now icao).1.espeak = none ∧
    getK (evalStep sv args s now icao).1.emerg icao = some now ∧
    getK (evalStep sv args s now icao).1.anns icao = some now ∧
    ∀ exited, (speakStep (evalStep sv args s now icao).1 exited).2.1 = some icao ∧
      (speakStep (evalStep sv args s now icao).1 exited).1.annqueue = s.annqueue := by
  have hstep : evalStep sv args s now icao =
      ({ s with annqueue := s.annqueue ++ [icao],
                emerg := setK s.emerg icao now,
                anns := setK s.anns icao now,
                espeak := none }, .emergencyEnq, []) := by
    simp [evalStep, hpl, hpos, hem, hcd]
  rw [hstep]
  refine ⟨rfl, rfl, rfl, getK_setK_self _ _ _, getK_setK_self _ _ _, ?_⟩
  intro exited
  constructor <;>
    simp [speakStep, List.getLast?_concat, List.dropLast_concat]

/-- Witness for C1: a concrete state with one pending routine entry and an
active speaker; the emergency aircraft (squawk 7700, position known, never
announced) is spoken next while the routine entry stays queued. -/
theorem c1_emergency_preempts_witness :
    (speakStep (evalStep (fun _ => ((0 : ℚ), (0 : ℚ), (0 : ℚ)))
        ⟨0, 0, 0, 0, 0⟩
        ⟨[("ABC123",
           { icao := "ABC123", altitude := some 10000, altitude_ts := 1,
             latitude := some 40, longitude := some (-74), position_ts := 1,
             squawk := some 7700, squawk_ts := 1, id := some "CALL", id_ts := 1,
             vertical_rate := some 0, vertical_rate_ts := 1, track := some 90,
             velocity := some 200, gt_ts := 1, gs_ts := 1, last_ts := 1 })],
         ["OLD1"], [], [], some "SPK"⟩ 1000 "ABC123").1 false).2.1 = some "ABC123" ∧
    (speakStep (evalStep (fun _ => ((0 : ℚ), (0 : ℚ), (0 : ℚ)))
        ⟨0, 0, 0, 0, 0⟩
        ⟨[("ABC123",
           { icao := "ABC123", altitude := some 10000, altitude_ts := 1,
             latitude := some 40, longitude := some (-74), position_ts := 1,
             squawk := some 7700, squawk_ts := 1, id := some "CALL", id_ts := 1,
             vertical_rate := some 0, vertical_rate_ts := 1, track := some 90,
             velocity := some 200, gt_ts := 1, gs_ts := 1, last_ts := 1 })],
         ["OLD1"], [], [], some "SPK"⟩ 1000 "ABC123").1 false).1.annqueue = ["OLD1"] := by
  have h := c1_emergency_preempts (fun _ => ((0 : ℚ), (0 : ℚ), (0 : ℚ)))
    ⟨0, 0, 0, 0, 0⟩
    ⟨[("ABC123",
       { icao := "ABC123", altitude := some 10000, altitude_ts := 1,
         latitude := some 40, longitude := some (-74), position_ts := 1,
         squawk := some 7700, squawk_ts := 1, id := some "CALL", id_ts := 1,
         vertical_rate := some 0, vertical_rate_ts := 1, track := some 90,
         velocity := some 200, gt_ts := 1, gs_ts := 1, last_ts := 1 })],
     ["OLD1"], [], [], some "SPK"⟩ 1000 "ABC123"
    { icao := "ABC123", altitude := some 10000, altitude_ts := 1,
      latitude := some 40, longitude := some (-74), position_ts := 1,
      squawk := some 7700, squawk_ts := 1, id := some "CALL", id_ts := 1,
      vertical_rate := some 0, vertical_rate_ts := 1, track := some 90,
      velocity := some 200, gt_ts := 1, gs_ts := 1, last_ts := 1 }
    rfl (by decide) (by decide) (by norm_num [getK])
  exact h.2.2.2.2.2 false

/-! ### C5: announcement cooldowns -/

/-- C5: the per-class cooldowns.  The evaluation step enqueues an aircraft as
an emergency only when more than 600 s have passed since its last emergency
announcement, and as a routine entry only when at least 300 s have passed
since its last announcement; each enqueue stamps the corresponding map(s) with
`now` (an emergency also stamps the routine map).  Contrapositively, within
600 s of `last_emergency` no emergency enqueue happens and within 300 s of
`last_announced` no routine enqueue happens; when neither branch enqueues, the
pending queue is unchanged. -/
theorem c5_cooldown (sv : Aircraft → ℚ × ℚ × ℚ) (args : Args) (s : LoopState)
    (now : ℚ) (icao : String) :
    ((evalStep sv args s now icao).2.1 = .emergencyEnq →
      600 < now - ((getK s.emerg icao).getD 0) ∧
      getK (evalStep sv args s now icao).1.emerg icao = some now ∧
      getK (evalStep sv args s now icao).1.anns icao = some now ∧
      (evalStep sv args s now icao).1.annqueue.count icao = s.annqueue.count icao + 1) ∧
    ((evalStep sv args s now icao).2.1 = .routineEnq →
      300 ≤ now - ((getK s.anns icao).getD 0) ∧
      getK (evalStep sv args s now icao).1.anns icao = some now ∧
      (evalStep sv args s now icao).1.annqueue.count icao = s.annqueue.count icao + 1) ∧
    (now - ((getK s.emerg icao).getD 0) ≤ 600 →
      (evalStep sv args s now icao).2.1 ≠ .emergencyEnq) ∧
    (now - ((getK s.anns icao).getD 0) < 300 →
      (evalStep sv args s now icao).2.1 ≠ .routineEnq) ∧
    (((evalStep sv args s now icao).2.1 = .skip ∨
      (evalStep sv args s now icao).2.1 = .routineSkip) →
      (evalStep sv args s now icao).1.annqueue = s.annqueue) := by
  rcases hpl : getK s.tracker icao with _ | pl
  · simp [evalStep, hpl]
  by_cases hg1 : (pl.has_position && pl.is_emergency &&
      decide (600 < now - ((getK s.emerg icao).getD 0))) = true
  · have hcd : 600 < now - ((getK s.emerg icao).getD 0) := by
      simp only [Bool.and_eq_true, decide_eq_true_eq] at hg1
      exact hg1.2
    have hstep : evalStep sv args s now icao =
        ({ s with annqueue := s.annqueue ++ [icao],
                  emerg := setK s.emerg icao now,
                  anns := setK s.anns icao now,
                  espeak := none }, .emergencyEnq, []) := by
      simp [evalStep, hpl, hg1]
    rw [hstep]
    refine ⟨?_, ?_, ?_, ?_, ?_⟩
    · intro _
      refine ⟨hcd, getK_setK_self _ _ _, getK_setK_self _ _ _, ?_⟩
      simp [List.count_append]
    · intro h
      exact absurd h (by simp)
    · intro hle _
      linarith
    · intro _ h
      exact absurd h (by simp)
    · intro h
      rcases h with h | h <;> exact absurd h (by simp)
  · by_cases hg2 : ((pl.complete args.wait now ||
        (decide (args.wait = 0) && pl.has_position)) &&
        decide (300 ≤ now - ((getK s.anns icao).getD 0))) = true
    · have hcd : 300 ≤ now - ((getK s.anns icao).getD 0) := by
        simp only [Bool.and_eq_true, decide_eq_true_eq] at hg2
        exact hg2.2
      by_cases hg3 : args.angle ≤ (sv pl).2.1
      · have hstep : evalStep sv args s now icao =
            ({ s with
               annqueue := (s.annqueue ++ [icao]).mergeSort
                 (fun i j => decide (inclKey sv s.tracker i ≤ inclKey sv s.tracker j)),
               anns := setK s.anns icao now },
             .routineEnq, icao :: (s.annqueue ++ [icao])) := by
          simp [evalStep, hpl, hg1, hg2, hg3]
        rw [hstep]
        have hcount : ((s.annqueue ++ [icao]).mergeSort
            (fun i j => decide (inclKey sv s.tracker i ≤ inclKey sv s.tracker j))).count icao
              = s.annqueue.count icao + 1 := by
          rw [(List.mergeSort_perm (s.annqueue ++ [icao]) _).count_eq]
          simp [List.count_append]
        refine ⟨?_, ?_, ?_, ?_, ?_⟩
        · intro h
          exact absurd h (by simp)
        · intro _
          exact ⟨hcd, getK_setK_self _ _ _, hcount⟩
        · intro _ h
          exact absurd h (by simp)
        · intro hlt _
          linarith
        · intro h
          rcases h with h | h <;> exact absurd h (by simp)
      · have hstep : evalStep sv args s now icao = (s, .routineSkip, [icao]) := by
          simp [evalStep, hpl, hg1, hg2, hg3]
        rw [hstep]
        refine ⟨?_, ?_, ?_, ?_, ?_⟩ <;> intro h
        · exact absurd h (by simp)
        · exact absurd h (by simp)
        · intro h2
          exact absurd h2 (by simp)
        · intro h2
          exact absurd h2 (by simp)
        · rfl
    · have hstep : evalStep sv args s now icao = (s, .skip, []) := by
        simp [evalStep, hpl, hg1, hg2]
      rw [hstep]
      refine ⟨?_, ?_, ?_, ?_, ?_⟩ <;> intro h
      · exact absurd h (by simp)
      · exact absurd h (by simp)
      · intro h2
        exact absurd h2 (by simp)
      · intro h2
        exact absurd h2 (by simp)
      · rfl

/-- Witness for C5 at a concrete state: 100 s after an emergency announcement
(recorded at time 0 would be 1000 s, so use `last_emergency = 900`) the
emergency branch does not fire again for that aircraft. -/
theorem c5_cooldown_witness :
    (evalStep (fun _ => ((0 : ℚ), (0 : ℚ), (0 : ℚ))) ⟨5, 0, 0, 0, 0⟩
      ⟨[], [], [("ABC123", 900)], [("ABC123", 900)], none⟩ 1000 "ABC123").2.1
        ≠ EvalAction.emergencyEnq :=
  (c5_cooldown (fun _ => ((0 : ℚ), (0 : ℚ), (0 : ℚ))) ⟨5, 0, 0, 0, 0⟩
    ⟨[], [], [("ABC123", 900)], [("ABC123", 900)], none⟩ 1000 "ABC123").2.2.1
    (by norm_num [getK])

/-! ### C4: geometry calls only on positioned aircraft -/

lemma applySBSField_pos_mono (off : Nat) (a : Aircraft) (v : String) (now : ℚ)
    (a3 : Aircraft) (h : applySBSField off a v now = some a3)
    (hpos : a.has_position = true) : a3.has_position = true := by
  unfold applySBSField at h
  split at h
  · injection h with h2
    subst h2
    simpa [Aircraft.update_id, Aircraft.has_position] using hpos
  · rw [Aircraft.update_altitude, Option.map_eq_some'] at h
    obtain ⟨n, hn, h2⟩ := h
    subst h2
    simp_all [Aircraft.has_position]
  · rw [Aircraft.update_ground_speed, Option.map_eq_some'] at h
    obtain ⟨n, hn, h2⟩ := h
    subst h2
    simp_all [Aircraft.has_position]
  · rw [Aircraft.update_ground_track, Option.map_eq_some'] at h
    obtain ⟨n, hn, h2⟩ := h
    subst h2
    simp_all [Aircraft.has_position]
  · rw [Aircraft.update_latitude, Option.map_eq_some'] at h
    obtain ⟨n, hn, h2⟩ := h
    subst h2
    simp_all [Aircraft.has_position]
  · rw [Aircraft.update_longitude, Option.map_eq_some'] at h
    obtain ⟨n, hn, h2⟩ := h
    subst h2
    simp_all [Aircraft.has_position]
  · rw [Aircraft.update_vertical_rate, Option.map_eq_some'] at h
    obtain ⟨n, hn, h2⟩ := h
    subst h2
    simp_all [Aircraft.has_position]
  · rw [Aircraft.update_squawk, Option.map_eq_some'] at h
    obtain ⟨n, hn, h2⟩ := h
    subst h2
    simp_all [Aircraft.has_position]
  · injection h with h2
    subst h2
    exact hpos

lemma runUpdates_pos_mono (fields : List String) (now : ℚ) (offs : List Nat) :
    ∀ a a2, (runUpdates fields now offs a = .ok a2 ∨
             runUpdates fields now offs a = .error a2) →
      a.has_position = true → a2.has_position = true := by
  induction offs with
  | nil =>
    intro a a2 h hpos
    rcases h with h | h
    · rw [runUpdates] at h
      injection h with h2
      subst h2
      exact hpos
    · rw [runUpdates] at h
      exact Except.noConfusion h
  | cons off rest ih =>
    intro a a2 h hpos
    simp only [runUpdates] at h
    by_cases hv : fields.getD off "" = ""
    · rw [if_pos hv] at h
      exact ih a a2 h hpos
    · rw [if_neg hv] at h
      rcases hap : applySBSField off a (fields.getD off "") now with _ | a3
      · rw [hap] at h
        rcases h with h | h
        · exact Except.noConfusion h
        · injection h with h2
          subst h2
          exact hpos
      · rw [hap] at h
        exact ih a3 a2 h (applySBSField_pos_mono off a _ now a3 hap hpos)

lemma parse_mono (t : AircraftTracker) (line : String) (now : ℚ)
    (t2 : AircraftTracker) (icao : String)
    (h : t.parse_sbs line now = .ok t2 icao ∨ t.parse_sbs line now = .fieldError t2 icao)
    (k : String) (a : Aircraft) (hk : getK t.planedict k = some a)
    (hpos : a.has_position = true) :
    ∃ a2, getK t2.planedict k = some a2 ∧ a2.has_position = true := by
  by_cases h0 : line = ""
  · simp [AircraftTracker.parse_sbs, h0] at h
  by_cases h1 : (pySplit ',' line).length < 18
  · simp [AircraftTracker.parse_sbs, h0, h1] at h
  simp only [AircraftTracker.parse_sbs, if_neg h0, if_neg h1] at h
  rcases hr : runUpdates (pySplit ',' line) now SBS_OFFSETS
      ((getK t.planedict (pyUpper ((pySplit ',' line).getD 4 ""))).getD
        (Aircraft.init (pyUpper ((pySplit ',' line).getD 4 "")) now)) with a3 | a3
  · rw [hr] at h
    rcases h with h | h
    · exact absurd h (by simp)
    · injection h with h2 h3
      by_cases hkk : k = pyUpper ((pySplit ',' line).getD 4 "")
      · refine ⟨a3, ?_, ?_⟩
        · rw [← h2, hkk]
          exact getK_setK_self _ _ _
        · have hplane : (getK t.planedict (pyUpper ((pySplit ',' line).getD 4 ""))).getD
              (Aircraft.init (pyUpper ((pySplit ',' line).getD 4 "")) now) = a := by
            rw [← hkk, hk]
            rfl
          rw [hplane] at hr
          exact runUpdates_pos_mono _ _ _ a a3 (Or.inr hr) hpos
      · refine ⟨a, ?_, hpos⟩
        rw [← h2]
        show getK (setK t.planedict (pyUpper ((pySplit ',' line).getD 4 "")) a3) k = some a
        rw [getK_setK_ne _ _ _ _ hkk]
        exact hk
  · rw [hr] at h
    rcases h with h | h
    · injection h with h2 h3
      by_cases hkk : k = pyUpper ((pySplit ',' line).getD 4 "")
      · refine ⟨a3, ?_, ?_⟩
        · rw [← h2, hkk]
          exact getK_setK_self _ _ _
        · have hplane : (getK t.planedict (pyUpper ((pySplit ',' line).getD 4 ""))).getD
              (Aircraft.init (pyUpper ((pySplit ',' line).getD 4 "")) now) = a := by
            rw [← hkk, hk]
            rfl
          rw [hplane] at hr
          exact runUpdates_pos_mono _ _ _ a a3 (Or.inl hr) hpos
      · refine ⟨a, ?_, hpos⟩
        rw [← h2]
        show getK (setK t.planedict (pyUpper ((pySplit ',' line).getD 4 "")) a3) k = some a
        rw [getK_setK_ne _ _ _ _ hkk]
        exact hk
    · exact absurd h (by simp)

lemma complete_has_position (a : Aircraft) (l : Int) (now : ℚ)
    (h : a.complete l now = true) : a.has_position = true := by
  simp only [Aircraft.complete, Bool.and_eq_true] at h
  exact h.1.1.1.1.1

lemma evalStep_calls (sv : Aircraft → ℚ × ℚ × ℚ) (args : Args) (s : LoopState)
    (now : ℚ) (icao : String) (hInv : QueueInv s) :
    QueueInv (evalStep sv args s now icao).1 ∧
    (evalStep sv args s now icao).1.tracker = s.tracker ∧
    ∀ i ∈ (evalStep sv args s now icao).2.2,
      ∃ a, getK s.tracker i = some a ∧ a.has_position = true := by
  rcases hpl : getK s.tracker icao with _ | pl
  · have hstep : evalStep sv args s now icao = (s, .skip, []) := by
      simp [evalStep, hpl]
    rw [hstep]
    exact ⟨hInv, rfl, by simp⟩
  by_cases hg1 : (pl.has_position && pl.is_emergency &&
      decide (600 < now - ((getK s.emerg icao).getD 0))) = true
  · have hpos : pl.has_position = true := by
      simp only [Bool.and_eq_true] at hg1
      exact hg1.1.1
    have hstep : evalStep sv args s now icao =
        ({ s with annqueue := s.annqueue ++ [icao],
                  emerg := setK s.emerg icao now,
                  anns := setK s.anns icao now,
                  espeak := none }, .emergencyEnq, []) := by
      simp [evalStep, hpl, hg1]
    rw [hstep]
    refine ⟨?_, rfl, by simp⟩
    intro i hi
    rcases List.mem_append.mp hi with hi | hi
    · exact hInv i hi
    · simp only [List.mem_singleton] at hi
      subst hi
      exact ⟨pl, hpl, hpos⟩
  · by_cases hg2 : ((pl.complete args.wait now ||
        (decide (args.wait = 0) && pl.has_position)) &&
        decide (300 ≤ now - ((getK s.anns icao).getD 0))) = true
    · have hpos : pl.has_position = true := by
        simp only [Bool.and_eq_true, Bool.or_eq_true] at hg2
        rcases hg2.1 with h | h
        · exact complete_has_position pl args.wait now h
        · exact h.2
      by_cases hg3 : args.angle ≤ (sv pl).2.1
      · have hstep : evalStep sv args s now icao =
            ({ s with
               annqueue := (s.annqueue ++ [icao]).mergeSort
                 (fun i j => decide (inclKey sv s.tracker i ≤ inclKey sv s.tracker j)),
               anns := setK s.anns icao now },
             .routineEnq, icao :: (s.annqueue ++ [icao])) := by
          simp [evalStep, hpl, hg1, hg2, hg3]
        rw [hstep]
        have hqmem : ∀ i ∈ s.annqueue ++ [icao],
            ∃ a, getK s.tracker i = some a ∧ a.has_position = true := by
          intro i hi
          rcases List.mem_append.mp hi with hi | hi
          · exact hInv i hi
          · simp only [List.mem_singleton] at hi
            subst hi
            exact ⟨pl, hpl, hpos⟩
        refine ⟨?_, rfl, ?_⟩
        · intro i hi
          exact hqmem i ((List.mergeSort_perm (s.annqueue ++ [icao]) _).mem_iff.mp hi)
        · intro i hi
          rcases List.mem_cons.mp hi with hi | hi
          · subst hi
            exact ⟨pl, hpl, hpos⟩
          · exact hqmem i hi
      · have hstep : evalStep sv args s now icao = (s, .routineSkip, [icao]) := by
          simp [evalStep, hpl, hg1, hg2, hg3]
        rw [hstep]
        refine ⟨hInv, rfl, ?_⟩
        intro i hi
        simp only [List.mem_singleton] at hi
        subst hi
        exact ⟨pl, hpl, hpos⟩
    · have hstep : evalStep sv args s now icao = (s, .skip, []) := by
        simp [evalStep, hpl, hg1, hg2]
      rw [hstep]
      exact ⟨hInv, rfl, by simp⟩

lemma speakStep_calls (s : LoopState) (exited : Bool) (hInv : QueueInv s) :
    QueueInv (speakStep s exited).1 ∧
    (speakStep s exited).1.tracker = s.tracker ∧
    ∀ i ∈ (speakStep s exited).2.2,
      ∃ a, getK s.tracker i = some a ∧ a.has_position = true := by
  have hpop : ∀ u : Unit,
      (∀ i ∈ s.annqueue.dropLast, i ∈ s.annqueue) ∧
      (∀ n, s.annqueue.getLast? = some n → n ∈ s.annqueue) :=
    fun _ => ⟨fun i hi => List.Sublist.mem hi (List.dropLast_sublist _),
      fun n hn => List.mem_of_mem_getLast? hn⟩
  rcases hesp : s.espeak with _ | p
  · rcases hq : s.annqueue.getLast? with _ | n
    · have hstep : speakStep s exited = ({ s with espeak := none }, none, []) := by
        simp [speakStep, hesp, hq]
      rw [hstep]
      exact ⟨fun i hi => hInv i hi, rfl, by simp⟩
    · have hstep : speakStep s exited =
          ({ s with annqueue := s.annqueue.dropLast, espeak := some n }, some n, [n]) := by
        simp [speakStep, hesp, hq]
      rw [hstep]
      refine ⟨?_, rfl, ?_⟩
      · intro i hi
        exact hInv i ((hpop ()).1 i hi)
      · intro i hi
        simp only [List.mem_singleton] at hi
        subst hi
        exact hInv i ((hpop ()).2 i hq)
  · by_cases hex : exited = true
    · subst hex
      rcases hq : s.annqueue.getLast? with _ | n
      · have hstep : speakStep s true = ({ s with espeak := none }, none, []) := by
          simp [speakStep, hesp, hq]
        rw [hstep]
        exact ⟨fun i hi => hInv i hi, rfl, by simp⟩
      · have hstep : speakStep s true =
            ({ s with annqueue := s.annqueue.dropLast, espeak := some n }, some n, [n]) := by
          simp [speakStep, hesp, hq]
        rw [hstep]
        refine ⟨?_, rfl, ?_⟩
        · intro i hi
          exact hInv i ((hpop ()).1 i hi)
        · intro i hi
          simp only [List.mem_singleton] at hi
          subst hi
          exact hInv i ((hpop ()).2 i hq)
    · have hex2 : exited = false := by
        rcases exited with _ | _
        · rfl
        · exact absurd rfl hex
      subst hex2
      have hstep : speakStep s false = ({ s with espeak := some p }, none, []) := by
        simp [speakStep, hesp]
      rw [hstep]
      exact ⟨fun i hi => hInv i hi, rfl, by simp⟩

/-- C4: the scheduler's structural guards keep `get_svector` inside its
precondition.  If every pending-queue entry refers to a tracked aircraft with
known position (the invariant), then one full main-loop iteration (parse, then
scheduler evaluation, then speaker servicing) invokes the geometry function
only on aircraft whose `has_position` holds in the current tracker — including
the eligibility call, the calls made by the pending-queue re-sort key on every
previously enqueued aircraft, and the call made when a popped entry is spoken
— and the invariant is preserved, so the undefined-position branch of the
geometry is unreachable. -/
theorem c4_svector_guarded (sv : Aircraft → ℚ × ℚ × ℚ) (args : Args) (s : LoopState)
    (line : String) (now : ℚ) (exited : Bool) (hInv : QueueInv s) :
    QueueInv (stepLoop sv args s line now exited).1 ∧
    ∀ i ∈ (stepLoop sv args s line now exited).2.1,
      ∃ a, getK (stepLoop sv args s line now exited).1.tracker i = some a ∧
        a.has_position = true := by
  rcases hp : AircraftTracker.parse_sbs ⟨s.tracker⟩ line now with _ | t2 | ⟨t2, icao⟩ | ⟨t2, icao⟩
  · have hstep : stepLoop sv args s line now exited = (s, [], false) := by
      simp [stepLoop, hp]
    rw [hstep]
    exact ⟨hInv, by simp⟩
  · have ht2 := parse_badLine _ _ _ _ hp
    subst ht2
    have hstep : stepLoop sv args s line now exited =
        ((speakStep s exited).1, (speakStep s exited).2.2, true) := by
      simp [stepLoop, hp]
    rw [hstep]
    obtain ⟨q1, q2, q3⟩ := speakStep_calls s exited hInv
    refine ⟨q1, ?_⟩
    intro i hi
    rw [q2]
    exact q3 i hi
  · have hInv1 : QueueInv { s with tracker := t2.planedict } := by
      intro i hi
      obtain ⟨a, hk, hpos⟩ := hInv i hi
      exact parse_mono ⟨s.tracker⟩ line now t2 icao (Or.inl hp) i a hk hpos
    by_cases hic : icao = ""
    · subst hic
      have hstep : stepLoop sv args s line now exited =
          ((speakStep { s with tracker := t2.planedict } exited).1,
           (speakStep { s with tracker := t2.planedict } exited).2.2, true) := by
        simp [stepLoop, hp]
      rw [hstep]
      obtain ⟨q1, q2, q3⟩ := speakStep_calls { s with tracker := t2.planedict } exited hInv1
      refine ⟨q1, ?_⟩
      intro i hi
      rw [q2]
      exact q3 i hi
    · have hstep : stepLoop sv args s line now exited =
          ((speakStep (evalStep sv args { s with tracker := t2.planedict } now icao).1 exited).1,
           (evalStep sv args { s with tracker := t2.planedict } now icao).2.2 ++
             (speakStep (evalStep sv args { s with tracker := t2.planedict } now icao).1
               exited).2.2, true) := by
        simp [stepLoop, hp, hic]
      rw [hstep]
      obtain ⟨e1, e2, e3⟩ := evalStep_calls sv args { s with tracker := t2.planedict } now icao hInv1
      obtain ⟨q1, q2, q3⟩ := speakStep_calls _ exited e1
      refine ⟨q1, ?_⟩
      intro i hi
      rcases List.mem_append.mp hi with hi | hi
      · rw [q2, e2]
        exact e3 i hi
      · rw [q2]
        exact q3 i hi
  · have hInv1 : QueueInv { s with tracker := t2.planedict } := by
      intro i hi
      obtain ⟨a, hk, hpos⟩ := hInv i hi
      exact parse_mono ⟨s.tracker⟩ line now t2 icao (Or.inr hp) i a hk hpos
    have hstep : stepLoop sv args s line now exited =
        ({ s with tracker := t2.planedict }, [], false) := by
      simp [stepLoop, hp]
    rw [hstep]
    exact ⟨hInv1, by simp⟩

/-- Witness for C4: a concrete state whose pending queue holds one positioned
aircraft satisfies the invariant; one loop iteration on a short (discarded)
line pops and speaks that entry, and the guarantee holds. -/
theorem c4_svector_guarded_witness :
    QueueInv (stepLoop (fun _ => ((0 : ℚ), (0 : ℚ), (0 : ℚ))) ⟨0, 0, 0, 0, 0⟩
      ⟨[("ABC123",
         { icao := "ABC123", altitude := some 10000, altitude_ts := 1,
           latitude := some 40, longitude := some (-74), position_ts := 1,
           squawk := some 1200, squawk_ts := 1, id := some "CALL", id_ts := 1,
           vertical_rate := some 0, vertical_rate_ts := 1, track := some 90,
           velocity := some 200, gt_ts := 1, gs_ts := 1, last_ts := 1 })],
       ["ABC123"], [], [], none⟩ "MSG,3" 5 false).1 ∧
    ∀ i ∈ (stepLoop (fun _ => ((0 : ℚ), (0 : ℚ), (0 : ℚ))) ⟨0, 0, 0, 0, 0⟩
      ⟨[("ABC123",
         { icao := "ABC123", altitude := some 10000, altitude_ts := 1,
           latitude := some 40, longitude := some (-74), position_ts := 1,
           squawk := some 1200, squawk_ts := 1, id := some "CALL", id_ts := 1,
           vertical_rate := some 0, vertical_rate_ts := 1, track := some 90,
           velocity := some 200, gt_ts := 1, gs_ts := 1, last_ts := 1 })],
       ["ABC123"], [], [], none⟩ "MSG,3" 5 false).2.1,
      ∃ a, getK (stepLoop (fun _ => ((0 : ℚ), (0 : ℚ), (0 : ℚ))) ⟨0, 0, 0, 0, 0⟩
        ⟨[("ABC123",
           { icao := "ABC123", altitude := some 10000, altitude_ts := 1,
             latitude := some 40, longitude := some (-74), position_ts := 1,
             squawk := some 1200, squawk_ts := 1, id := some "CALL", id_ts := 1,
             vertical_rate := some 0, vertical_rate_ts := 1, track := some 90,
             velocity := some 200, gt_ts := 1, gs_ts := 1, last_ts := 1 })],
         ["ABC123"], [], [], none⟩ "MSG,3" 5 false).1.tracker i = some a ∧
        a.has_position = true := by
  apply c4_svector_guarded
  intro i hi
  simp only [List.mem_singleton] at hi
  subst hi
  exact ⟨_, rfl, by decide⟩
